import Mathlib

/-!
Shallow embedding of the converter bot (src/main.py): the rate cache with
schedule-aware invalidation (`is_cache_expired`, `get_rates`), the
request-parsing and conversion engine (`convert_handler`), and the numeric
formatter (`fmt`).  Python `Decimal` values are modeled as exact rationals
(`ℚ`); the arithmetic appearing in the source is carried out through
numerator/denominator constructions (`Rat.divInt`) so that every definition
evaluates by kernel reduction, and bridge lemmas relate those constructions to
the ordinary field operations on `ℚ`.
-/

namespace ConverterBot

/-- Exact product of two rationals, built as `Rat.divInt` on numerators and
denominators so the kernel can evaluate it (the library `Rat.mul` is
irreducible).  Models multiplication of Python `Decimal` values, which is
exact. -/
def qmul (a b : ℚ) : ℚ :=
  Rat.divInt (a.num * b.num) ((a.den : ℤ) * (b.den : ℤ))

/-- Exact quotient of two rationals, built as `Rat.divInt` on numerators and
denominators so the kernel can evaluate it.  Models division of Python
`Decimal` values; the source only displays results after `fmt`, and the
divisions involved are modeled exactly. -/
def qdiv (a b : ℚ) : ℚ :=
  Rat.divInt (a.num * (b.den : ℤ)) ((a.den : ℤ) * b.num)

/-- One rate record of the remote table: the fields of a JSON item other than
`Cur_Abbreviation` (which is used as the table key).  The synthetic base
currency record injected by `convert_handler` has no `Cur_Name`, hence the
`Option`. -/
structure RateRecord where
  curName : Option String
  curOfficialRate : ℚ
  curScale : ℚ
deriving DecidableEq, Repr

/-- The rate table: a string-keyed dictionary in the source, modeled as an
insertion-ordered association list, as Python dicts are. -/
abbrev RateTable := List (String × RateRecord)

/-- Python dict assignment `t[k] = v`: overwrite in place if the key exists
(keeping its position), else append. -/
def dictInsert (t : RateTable) (k : String) (v : RateRecord) : RateTable :=
  if (t.lookup k).isSome then
    t.map (fun p => if p.1 = k then (k, v) else p)
  else t ++ [(k, v)]

/-- The dict comprehension in `get_rates` (src/main.py:60): key each fetched
item by its `Cur_Abbreviation`. -/
def buildTable (items : List (String × RateRecord)) : RateTable :=
  items.foldl (fun t i => dictInsert t i.1 i.2) []

/-- A `datetime.now()` value, reduced to what the source inspects: the
calendar date (as an ordinal day) and the time of day in microseconds. -/
structure PyDateTime where
  day : ℕ
  tod : ℕ
deriving DecidableEq, Repr

/-- The 11:05 publication cutoff (`time(11, 5)` in the source) in
microseconds since midnight. -/
def cutoff : ℕ := 39900000000

/-- The module-level cache `{"data": None, "last_date": None}`.  `last_date`
is only ever read after `data` has been set, so it is modeled as a plain
value. -/
structure Cache where
  data : Option RateTable
  last_date : PyDateTime
deriving DecidableEq, Repr

/-- Outcome of the HTTP fetch in `get_rates`: a 200 response with a parsed
JSON body (the list of items, keyed by `Cur_Abbreviation`), or any failure
(network error, non-200 status, unparseable body). -/
inductive FetchResult where
  | success (items : List (String × RateRecord))
  | failure
deriving DecidableEq, Repr

/-- Staleness test `is_cache_expired` (src/main.py:38-49).  The guard
`not cache["data"]` is true both when no table was ever stored and when the
stored dict is empty. -/
def is_cache_expired (c : Cache) (now : PyDateTime) : Bool :=
  match c.data with
  | none => true
  | some t =>
    if t.isEmpty then true
    else if c.last_date.day < now.day then true
    else if cutoff < now.tod ∧ c.last_date.tod < cutoff then true
    else false

/-- Cache refresh `get_rates` (src/main.py:52-65): refresh the cache if it is expired; on a
successful fetch replace table and timestamp, on failure swallow the error
and keep the previous state; always return `cache["data"]`. -/
def get_rates (c : Cache) (now : PyDateTime) (fetch : FetchResult) :
    Cache × Option RateTable :=
  if is_cache_expired c now then
    match fetch with
    | .success items =>
      let t := buildTable items
      (⟨some t, now⟩, some t)
    | .failure => (c, c.data)
  else (c, c.data)

/-- Quantization `Decimal.quantize(q, ROUND_HALF_UP)` on an exact value: the integer
number of quanta `10 ^ (-n)` in `d`, rounding ties away from zero (that is
what `ROUND_HALF_UP` means).  Written with integer floor division
(`Int.ediv`, the `/` of `ℤ`) on numerator and denominator so the kernel can
evaluate it. -/
def roundHalfUp (d : ℚ) (n : ℕ) : ℤ :=
  let a : ℤ := d.num * 10 ^ n
  let b : ℤ := (d.den : ℤ)
  if 0 ≤ a then (2 * a + b) / (2 * b) else -((2 * (-a) + b) / (2 * b))

/-- Left-pad with zeros to `n` characters. -/
def padZeros (s : String) (n : ℕ) : String :=
  String.mk (List.replicate (n - s.length) '0') ++ s

/-- Fixed-point rendering of a quantized decimal, as Python's `str` prints
it: optional sign, integer digits, a point, exactly `n` fractional digits.
`neg` is the sign of the quantized `Decimal` (negative inputs keep their
sign even when the rounded coefficient is zero). -/
def renderFixed (neg : Bool) (a : ℕ) (n : ℕ) : String :=
  (if neg then "-" else "") ++ toString (a / 10 ^ n) ++ "." ++
    padZeros (toString (a % 10 ^ n)) n

/-- Python `str.rstrip(c)`: drop every trailing occurrence of `ch`. -/
def rstrip (s : String) (ch : Char) : String :=
  String.mk ((s.toList.reverse.dropWhile (fun c => c == ch)).reverse)

/-- Formatter `fmt` (src/main.py:68-71): quantize at 2 fractional digits when `d >= 1`
and at 6 otherwise, with `ROUND_HALF_UP`, then strip trailing zeros and a
bare trailing point. -/
def fmt (d : ℚ) : String :=
  let n : ℕ := if 1 ≤ d then 2 else 6
  rstrip (rstrip (renderFixed (decide (d < 0)) (roundHalfUp d n).natAbs n) '0') '.'

/-- Numeric value of a digit character. -/
def charVal (c : Char) : ℕ := c.toNat - 48

/-- Value of a digit string, most significant first. -/
def digitsVal (cs : List Char) : ℕ := cs.foldl (fun a c => 10 * a + charVal c) 0

/-- Optional leading sign: returns (isNegative, rest). -/
def splitSign : List Char → Bool × List Char
  | '+' :: cs => (false, cs)
  | '-' :: cs => (true, cs)
  | cs => (false, cs)

/-- Exact value of the decimal literal `[sign] ip [. fp] [E e]`, namely
`±(ip * 10 ^ |fp| + fp) * 10 ^ (e - |fp|)`, built with `Rat.divInt` so it
evaluates by kernel reduction. -/
def decValue (neg : Bool) (ip fp : List Char) (e : ℤ) : ℚ :=
  let base : ℤ := (digitsVal ip : ℤ) * 10 ^ fp.length + (digitsVal fp : ℤ)
  let m : ℤ := if neg then -base else base
  let k : ℤ := e - fp.length
  if 0 ≤ k then Rat.divInt (m * 10 ^ k.toNat) 1 else Rat.divInt m (10 ^ (-k).toNat)

/-- Exponent-and-end part of a `Decimal` literal, after mantissa `ip`/`fp`:
either the end of the string or `e`/`E`, an optional sign and digits. -/
def parseExpPart (neg : Bool) (ip fp : List Char) : List Char → Option ℚ
  | [] => some (decValue neg ip fp 0)
  | c :: r =>
    if c == 'e' || c == 'E' then
      let (eneg, r2) := splitSign r
      let ds := r2.takeWhile Char.isDigit
      let r3 := r2.dropWhile Char.isDigit
      if ds.isEmpty || !r3.isEmpty then none
      else
        some (decValue neg ip fp
          (if eneg then -(digitsVal ds : ℤ) else (digitsVal ds : ℤ)))
    else none

/-- Python `Decimal(s)` on finite numeric literals (optional sign, digits
with an optional fractional part, optional exponent); returns `none` exactly
when the constructor raises on such input.  The special forms NaN and
Infinity, which `Decimal` also accepts, have no exact-rational counterpart
and are outside the model. -/
def pyDecimal (s : String) : Option ℚ :=
  let (neg, r) := splitSign s.toList
  let ip := r.takeWhile Char.isDigit
  let r1 := r.dropWhile Char.isDigit
  match r1 with
  | '.' :: r2 =>
    let fp := r2.takeWhile Char.isDigit
    let r3 := r2.dropWhile Char.isDigit
    if ip.isEmpty ∧ fp.isEmpty then none
    else parseExpPart neg ip fp r3
  | _ => if ip.isEmpty then none else parseExpPart neg ip [] r1

/-- Does `pat` occur at the head of `cs`? -/
def headMatches : List Char → List Char → Bool
  | [], _ => true
  | _ :: _, [] => false
  | p :: ps, c :: cs => p == c && headMatches ps cs

/-- Fuel-indexed worker for Python `str.replace`: replace each
non-overlapping occurrence of `pat`, left to right.  The fuel is the length
of the remaining input, which never runs out when `pat` is nonempty. -/
def replaceGo (pat repl : List Char) : ℕ → List Char → List Char
  | 0, cs => cs
  | _ + 1, [] => []
  | fuel + 1, c :: cs =>
    if headMatches pat (c :: cs) && !pat.isEmpty then
      repl ++ replaceGo pat repl fuel ((c :: cs).drop pat.length)
    else c :: replaceGo pat repl fuel cs

/-- Python `str.replace(pat, repl)` (every occurrence). -/
def pyReplace (s pat repl : String) : String :=
  String.mk (replaceGo pat.toList repl.toList s.toList.length s.toList)

/-- Python `str.strip()`: remove leading and trailing whitespace. -/
def pyStrip (s : String) : String :=
  String.mk
    (((s.toList.dropWhile Char.isWhitespace).reverse.dropWhile
        Char.isWhitespace).reverse)

/-- Python `str.upper()` on the ASCII currency-code groups. -/
def pyUpper (s : String) : String := String.mk (s.toList.map Char.toUpper)

/-- Python `abs` on a `Decimal`. -/
def pyAbs (q : ℚ) : ℚ := if q < 0 then -q else q

/-- One-or-more whitespace (`\s+` of the pattern). -/
def spaces1 : List Char → Option (List Char)
  | c :: r =>
    if c.isWhitespace then some (r.dropWhile Char.isWhitespace) else none
  | [] => none

/-- Exactly three ASCII letters (`[A-Z]{3}` under `re.I`). -/
def take3Letters : List Char → Option (String × List Char)
  | a :: b :: c :: r =>
    if a.isAlpha && b.isAlpha && c.isAlpha then some (String.mk [a, b, c], r)
    else none
  | _ => none

/-- The literal connective `to`, case-insensitively. -/
def matchTo : List Char → Option (List Char)
  | a :: b :: r =>
    if (a == 't' || a == 'T') && (b == 'o' || b == 'O') then some r else none
  | _ => none

/-- Pattern `REQ_RE` (src/main.py:29-32) matched against the whole text:
`^\s*([-+]?\d+(?:[.,]\d+)?)\s+([A-Z]{3})\s+to\s+([A-Z]{3})\s*$` with
`re.I`.  Returns the value of the amount group — exactly what
`Decimal(match.group("amount").replace(",", "."))` later computes on it —
together with the two raw code groups. -/
def req_re_match (s : String) : Option (ℚ × String × String) :=
  let cs := s.toList.dropWhile Char.isWhitespace
  let (neg, cs1) := splitSign cs
  let ds := cs1.takeWhile Char.isDigit
  let cs2 := cs1.dropWhile Char.isDigit
  if ds.isEmpty then none
  else
    let (fds, cs3) :=
      match cs2 with
      | c :: r =>
        if (c == '.' || c == ',') && !(r.takeWhile Char.isDigit).isEmpty then
          (r.takeWhile Char.isDigit, r.dropWhile Char.isDigit)
        else ([], cs2)
      | [] => ([], cs2)
    match spaces1 cs3 with
    | none => none
    | some cs4 =>
      match take3Letters cs4 with
      | none => none
      | some (cf, cs5) =>
        match spaces1 cs5 with
        | none => none
        | some cs6 =>
          match matchTo cs6 with
          | none => none
          | some cs7 =>
            match spaces1 cs7 with
            | none => none
            | some cs8 =>
              match take3Letters cs8 with
              | none => none
              | some (ct, cs9) =>
                if (cs9.dropWhile Char.isWhitespace).isEmpty then
                  some (decValue neg ds fds 0, cf, ct)
                else none

/-- The replies `convert_handler` can send, reduced to their content. -/
inductive Reply where
  | formatHint
  | zeroAmount
  | usage
  | sameCode (formattedAmount : String) (code : String)
  | noRates
  | notFound
  | result (amount : ℚ) (curFrom : String) (converted : ℚ) (curTo : String)
      (cross : ℚ)
deriving DecidableEq, Repr

/-- Observable outcome of one `convert_handler` call: the reply, the cache
state afterwards, and whether the rates path (HTTP session, `get_rates`,
table lookups) was entered at all. -/
structure HandlerOut where
  reply : Reply
  cache : Cache
  ratesAccessed : Bool
deriving DecidableEq, Repr

/-- The synthetic base-currency record
`{"Cur_OfficialRate": 1, "Cur_Scale": 1}` of src/main.py:136. -/
def bynRecord : RateRecord := ⟨none, 1, 1⟩

/-- Cost of one unit of a currency in BYN (src/main.py:142-147):
`Cur_OfficialRate / Cur_Scale`. -/
def unitValue (r : RateRecord) : ℚ := qdiv r.curOfficialRate r.curScale

/-- The conversion computation of `convert_handler` (src/main.py:141-150) as
a function of the augmented table:
`amount * unitValue(from) / unitValue(to)`, `none` when a code is absent. -/
def convertAmount (rates : RateTable) (amount : ℚ) (cf ct : String) :
    Option ℚ :=
  match rates.lookup cf, rates.lookup ct with
  | some rf, some rt => some (qdiv (qmul amount (unitValue rf)) (unitValue rt))
  | _, _ => none

/-- Parsing stage of `convert_handler` (src/main.py:102-125): first the
bare-number shortcut via `Decimal(text.replace(",", "."))`, then the
explicit `REQ_RE` grammar, else the usage reply. -/
def parse_request (text : String) : Sum Reply (ℚ × String × String) :=
  match pyDecimal (pyReplace text "," ".") with
  | some q =>
    if q = 0 then .inl .zeroAmount
    else if 0 < q then .inr (q, "BYN", "RUB")
    else .inr (pyAbs q, "RUB", "BYN")
  | none =>
    match req_re_match text with
    | some (q, f, t) => .inr (q, pyUpper f, pyUpper t)
    | none => .inl .usage

/-- Handler `convert_handler` (src/main.py:90-155).  `fetch` is the outcome the HTTP
layer would deliver if a fetch happened during this call.  In the source
`rates` aliases `cache["data"]`, so the assignment `rates["BYN"] = ...`
updates the cached dict itself; the cache component of the result reflects
that. -/
def convert_handler (msgText : String) (c : Cache) (now : PyDateTime)
    (fetch : FetchResult) : HandlerOut :=
  let text := pyStrip (pyReplace msgText "/convert" "")
  if text = "" then ⟨.formatHint, c, false⟩
  else
    match parse_request text with
    | .inl r => ⟨r, c, false⟩
    | .inr (amount, cur_from, cur_to) =>
      if cur_from = cur_to then ⟨.sameCode (fmt amount) cur_to, c, false⟩
      else
        match get_rates c now fetch with
        | (c1, none) => ⟨.noRates, c1, true⟩
        | (c1, some rates) =>
          if rates.isEmpty then ⟨.noRates, c1, true⟩
          else
            let rates2 := dictInsert rates "BYN" bynRecord
            let c2 : Cache := ⟨some rates2, c1.last_date⟩
            match rates2.lookup cur_from, rates2.lookup cur_to with
            | some rf, some rt =>
              ⟨.result amount cur_from
                  (qdiv (qmul amount (unitValue rf)) (unitValue rt)) cur_to
                  (qdiv (unitValue rf) (unitValue rt)), c2, true⟩
            | _, _ => ⟨.notFound, c2, true⟩

/-- Specification-level rounding at `n` fractional digits, written with the
mathematical floor and ceiling on `ℚ`: round half up, ties away from zero
(`⌊s + 1/2⌋` for nonnegative scaled values, `⌈s - 1/2⌉` for negative ones). -/
def roundHalfUpSpec (d : ℚ) (n : ℕ) : ℤ :=
  let s : ℚ := d * 10 ^ n
  if 0 ≤ s then ⌊s + 1 / 2⌋ else ⌈s - 1 / 2⌉

/-- The formatter as §4.4 of the spec describes it, with the precision rule
corrected to the signed comparison the code performs (`d >= 1`, not
`|d| >= 1`): round half-up at 2 fractional digits when `1 ≤ d` and at 6
otherwise, then strip trailing zeros and a bare trailing point. -/
def fmt_spec (d : ℚ) : String :=
  let n : ℕ := if 1 ≤ d then 2 else 6
  rstrip (rstrip (renderFixed (decide (d < 0)) (roundHalfUpSpec d n).natAbs n) '0') '.'

theorem qmul_eq (a b : ℚ) : qmul a b = a * b := by
  rw [qmul, ← Rat.divInt_mul_divInt', Rat.num_divInt_den, Rat.num_divInt_den]

theorem qdiv_eq (a b : ℚ) : qdiv a b = a / b := by
  rw [qdiv, ← Rat.divInt_div_divInt, Rat.num_divInt_den, Rat.num_divInt_den]

theorem floor_half_div (a : ℤ) (d : ℕ) (hd : d ≠ 0) :
    ⌊(a : ℚ) / (d : ℚ) + 1 / 2⌋ = (2 * a + (d : ℤ)) / (2 * (d : ℤ)) := by
  have hd' : ((d : ℚ)) ≠ 0 := Nat.cast_ne_zero.mpr hd
  have h : (a : ℚ) / (d : ℚ) + 1 / 2 = ((2 * a + (d : ℤ) : ℤ) : ℚ) / ((2 * d : ℕ) : ℚ) := by
    field_simp
    ring
  rw [h, Rat.floor_intCast_div_natCast]
  norm_cast

theorem roundHalfUp_eq_spec (d : ℚ) (n : ℕ) : roundHalfUp d n = roundHalfUpSpec d n := by
  simp only [roundHalfUp, roundHalfUpSpec]
  have hden : ((d.den : ℚ)) ≠ 0 := Nat.cast_ne_zero.mpr d.den_nz
  have hdenpos : (0 : ℚ) < (d.den : ℚ) := by
    exact_mod_cast d.den_pos
  have hs : d * 10 ^ n = ((d.num * 10 ^ n : ℤ) : ℚ) / ((d.den : ℕ) : ℚ) := by
    conv_lhs => rw [← Rat.num_div_den d]
    push_cast
    ring
  have hcond : 0 ≤ d.num * 10 ^ n ↔ 0 ≤ d * 10 ^ n := by
    rw [hs, le_div_iff₀ hdenpos, zero_mul]
    exact_mod_cast Iff.rfl
  split_ifs with h1 h2 h2
  · rw [hs, floor_half_div _ _ d.den_nz]
  · exact absurd (hcond.mp h1) h2
  · exact absurd (hcond.mpr h2) h1
  · rw [show d * 10 ^ n - 1 / 2 = -(-(d * 10 ^ n) + 1 / 2) by ring, Int.ceil_neg]
    congr 1
    have hs' : -(d * 10 ^ n) = ((-(d.num * 10 ^ n) : ℤ) : ℚ) / ((d.den : ℕ) : ℚ) := by
      rw [hs]
      push_cast
      ring
    rw [hs', floor_half_div _ _ d.den_nz]

theorem fmt_eq_fmt_spec (d : ℚ) : fmt d = fmt_spec d := by
  simp only [fmt, fmt_spec, roundHalfUp_eq_spec]

/-- Claim C2 (amended): the staleness predicate returns true exactly when
the cache holds no nonempty table (never fetched, or the last fetch stored
an empty table), or the current date is strictly later than the date of the
last fetch, or the current time-of-day is strictly past the 11:05 cutoff
while the last fetch's time-of-day was strictly before it; in every other
state it returns false.  In particular, at exactly 11:05:00 the cache is
not yet stale. -/
theorem c2_staleness_characterization :
    (∀ (t : RateTable) (last now : PyDateTime),
        is_cache_expired ⟨some t, last⟩ now = true ↔
          (t = [] ∨ last.day < now.day ∨ (cutoff < now.tod ∧ last.tod < cutoff)))
    ∧ ∀ (last now : PyDateTime), is_cache_expired ⟨none, last⟩ now = true := by
  constructor
  · intro t last now
    simp only [is_cache_expired]
    split_ifs with h1 h2 h3 <;> simp_all [List.isEmpty_iff]
  · intro last now
    rfl

/-- Claim C2, counterexample: with the last fetch today at 10:00 and now
exactly today 11:05:00.000000, the code reports the cache as NOT stale (the
comparison with the cutoff is strict), contradicting the claim's "at or
past" reading; and a fetched-but-empty table is reported stale even in a
state where none of the claim's three conditions holds. -/
theorem c2_cutoff_boundary_counterexample :
    is_cache_expired ⟨some [("USD", ⟨some "Dollar", 3, 1⟩)], ⟨800, 36000000000⟩⟩
        ⟨800, 39900000000⟩ = false
    ∧ is_cache_expired ⟨some [], ⟨800, 50000000000⟩⟩ ⟨800, 50000000001⟩ = true := by
  constructor <;> decide

/-- Claim C3 (amended): `fmt` rounds at 2 fractional digits when `d ≥ 1`
(signed comparison, not absolute value) and at 6 otherwise, half-up with
ties away from zero, then strips trailing zeros and a bare trailing point;
`fmt 3.005 = "3.01"`, `fmt 0.1234567 = "0.123457"`, `fmt 5 = "5"`, and a
negative value such as `-5.125` is rounded at 6 fractional digits, so
`fmt (-5.125) = "-5.125"`. -/
theorem c3_fmt_rounding_and_stripping :
    (∀ d : ℚ, fmt d = fmt_spec d)
    ∧ fmt (mkRat 3005 1000) = "3.01"
    ∧ fmt (mkRat 1234567 10000000) = "0.123457"
    ∧ fmt 5 = "5"
    ∧ fmt (mkRat (-5125) 1000) = "-5.125" :=
  ⟨fmt_eq_fmt_spec, by decide, by decide, by decide, by decide⟩

/-- Claim C3, counterexample: `fmt (-5.125)` is `"-5.125"` — three
fractional digits survive because the code compares `d >= 1`, not
`|d| >= 1`; rounding at 2 digits as the claim states would have produced
`"-5.13"`. -/
theorem c3_negative_keeps_six_digits :
    fmt (mkRat (-5125) 1000) = "-5.125"
    ∧ fmt (mkRat (-5125) 1000) ≠ "-5.13" := by
  constructor <;> decide

theorem parse_request_of_empty : parse_request "" = Sum.inl Reply.usage := by
  decide

/-- Claim C1: the failing scenario, evaluated.  One successful fetch of a
table with USD and EUR followed by one cross-currency request leaves the
cached table equal to the fetched table *plus* the synthetic BYN record:
`rates` aliases `cache["data"]`, so `rates["BYN"] = ...` mutates the cached
dict rather than a per-request copy (the fetched table itself, as
`buildTable` produces it, has no BYN entry). -/
theorem c1_cached_table_gains_byn :
    (convert_handler "10 USD to EUR" ⟨none, ⟨799, 0⟩⟩ ⟨800, 41000000000⟩
        (.success [("USD", ⟨some "Dollar", 3, 1⟩),
          ("EUR", ⟨some "Euro", 7, 2⟩)])).cache.data
      = some [("USD", ⟨some "Dollar", 3, 1⟩), ("EUR", ⟨some "Euro", 7, 2⟩),
          ("BYN", bynRecord)]
    ∧ buildTable [("USD", ⟨some "Dollar", 3, 1⟩), ("EUR", ⟨some "Euro", 7, 2⟩)]
      = [("USD", ⟨some "Dollar", 3, 1⟩), ("EUR", ⟨some "Euro", 7, 2⟩)]
    ∧ ([("USD", ⟨some "Dollar", 3, 1⟩), ("EUR", ⟨some "Euro", 7, 2⟩)] :
        RateTable).lookup "BYN" = none := by
  refine ⟨?_, ?_, ?_⟩ <;> decide

/-- Claim C4: for every cache state, a failing fetch (network error,
non-200 status, unparseable body) leaves the cache — table and timestamp —
exactly as it was, returns the previous table, and returns `none` (the
failure value) when no previous table exists; `get_rates` is total, so no
exception propagates. -/
theorem c4_failed_fetch_preserves_cache (c : Cache) (now : PyDateTime) :
    get_rates c now .failure = (c, c.data)
    ∧ (c.data = none → (get_rates c now .failure).2 = none) := by
  have h1 : get_rates c now .failure = (c, c.data) := by
    unfold get_rates
    split <;> rfl
  exact ⟨h1, fun h => by rw [h1, h]⟩

theorem c4_failed_fetch_preserves_cache_witness :
    get_rates ⟨none, ⟨0, 0⟩⟩ ⟨0, 0⟩ .failure = (⟨none, ⟨0, 0⟩⟩, none)
    ∧ (get_rates ⟨none, ⟨0, 0⟩⟩ ⟨0, 0⟩ .failure).2 = none := by
  have h := c4_failed_fetch_preserves_cache ⟨none, ⟨0, 0⟩⟩ ⟨0, 0⟩
  exact ⟨h.1, h.2 rfl⟩

/-- Claim C5: for any validated cross-currency request whose two codes are
both present in the augmented table, the handler's result carries exactly
the reference values of the spec, stated with the field operations of `ℚ`:
`unitValue(code) = officialRate(code) / scale(code)`,
`converted = amount * unitValue(from) / unitValue(to)` and the displayed
cross-rate `unitValue(from) / unitValue(to)`. -/
theorem c5_reference_formulas (msgText : String) (amount : ℚ)
    (cf ct : String) (c c1 : Cache) (now : PyDateTime) (fetch : FetchResult)
    (rates : RateTable) (rf rt : RateRecord)
    (hparse : parse_request (pyStrip (pyReplace msgText "/convert" "")) =
      .inr (amount, cf, ct))
    (hne : cf ≠ ct)
    (hrates : get_rates c now fetch = (c1, some rates))
    (hnonempty : rates.isEmpty = false)
    (hf : (dictInsert rates "BYN" bynRecord).lookup cf = some rf)
    (ht : (dictInsert rates "BYN" bynRecord).lookup ct = some rt) :
    convert_handler msgText c now fetch =
      ⟨.result amount cf
          (amount * (rf.curOfficialRate / rf.curScale) /
            (rt.curOfficialRate / rt.curScale))
          ct
          ((rf.curOfficialRate / rf.curScale) /
            (rt.curOfficialRate / rt.curScale)),
        ⟨some (dictInsert rates "BYN" bynRecord), c1.last_date⟩, true⟩ := by
  have hempty : pyStrip (pyReplace msgText "/convert" "") ≠ "" := by
    intro h
    rw [h, parse_request_of_empty] at hparse
    exact Sum.noConfusion hparse
  simp only [convert_handler, hparse, hrates, hnonempty, if_neg hempty,
    if_neg hne, Bool.false_eq_true, if_false, hf, ht]
  simp only [qdiv_eq, qmul_eq, unitValue]

theorem c5_reference_formulas_witness :
    convert_handler "10 USD to EUR"
      ⟨some [("USD", ⟨some "Dollar", 3, 1⟩), ("EUR", ⟨some "Euro", 7, 2⟩)],
        ⟨800, 40000000000⟩⟩
      ⟨800, 41000000000⟩ .failure =
    ⟨.result 10 "USD" ((10 : ℚ) * ((3 : ℚ) / 1) / ((7 : ℚ) / 2)) "EUR"
        (((3 : ℚ) / 1) / ((7 : ℚ) / 2)),
      ⟨some [("USD", ⟨some "Dollar", 3, 1⟩), ("EUR", ⟨some "Euro", 7, 2⟩),
        ("BYN", bynRecord)], ⟨800, 40000000000⟩⟩, true⟩ := by
  have h := c5_reference_formulas "10 USD to EUR" 10 "USD" "EUR"
    ⟨some [("USD", ⟨some "Dollar", 3, 1⟩), ("EUR", ⟨some "Euro", 7, 2⟩)],
      ⟨800, 40000000000⟩⟩
    ⟨some [("USD", ⟨some "Dollar", 3, 1⟩), ("EUR", ⟨some "Euro", 7, 2⟩)],
      ⟨800, 40000000000⟩⟩
    ⟨800, 41000000000⟩ .failure
    [("USD", ⟨some "Dollar", 3, 1⟩), ("EUR", ⟨some "Euro", 7, 2⟩)]
    ⟨some "Dollar", 3, 1⟩ ⟨some "Euro", 7, 2⟩
    (by decide) (by decide) (by decide) (by decide) (by decide) (by decide)
  simpa using h

/-- Claim C6: for any text whose comma-normalized form `Decimal` accepts in
its entirety with value `q` (in particular every trimmed single signed
decimal number with comma or dot separator): `q = 0` yields the zero-amount
user error, `q > 0` yields the request `(q, BYN, RUB)`, and `q < 0` yields
the request `(|q|, RUB, BYN)`. -/
theorem c6_bare_number_shortcut (text : String) (q : ℚ)
    (hq : pyDecimal (pyReplace text "," ".") = some q)
    (hstrip : pyStrip (pyReplace text "/convert" "") = text) :
    (q = 0 → ∀ (c : Cache) (now : PyDateTime) (fetch : FetchResult),
        convert_handler text c now fetch = ⟨.zeroAmount, c, false⟩)
    ∧ (0 < q → parse_request text = .inr (q, "BYN", "RUB"))
    ∧ (q < 0 → parse_request text = .inr (-q, "RUB", "BYN")) := by
  have hempty : text ≠ "" := by
    intro h
    rw [h] at hq
    rw [show pyDecimal (pyReplace "" "," ".") = none from by decide] at hq
    exact Option.noConfusion hq
  refine ⟨?_, ?_, ?_⟩
  · intro h0 c now fetch
    have hparse : parse_request text = .inl .zeroAmount := by
      simp only [parse_request, hq, if_pos h0]
    simp only [convert_handler, hstrip, if_neg hempty, hparse]
  · intro hpos
    simp only [parse_request, hq, if_neg (ne_of_gt hpos), if_pos hpos]
  · intro hneg
    simp only [parse_request, hq, if_neg (ne_of_lt hneg),
      if_neg (not_lt_of_gt hneg), pyAbs, if_pos hneg]

theorem c6_bare_number_shortcut_witness :
    parse_request "-50" = .inr (50, "RUB", "BYN") := by
  have h := (c6_bare_number_shortcut "-50" (-50) (by decide) (by decide)).2.2
    (by decide)
  simpa using h

/-- Claim C7: when the parsed request carries equal from/to codes, the
handler replies with the unchanged amount formatted in that currency,
leaves the cache untouched and never enters the rates path — for every
cache state (even empty) and every code (even one no rate table knows). -/
theorem c7_equal_code_shortcut (msgText : String) (amount : ℚ) (code : String)
    (c : Cache) (now : PyDateTime) (fetch : FetchResult)
    (hparse : parse_request (pyStrip (pyReplace msgText "/convert" "")) =
      .inr (amount, code, code)) :
    convert_handler msgText c now fetch = ⟨.sameCode (fmt amount) code, c, false⟩ := by
  have hempty : pyStrip (pyReplace msgText "/convert" "") ≠ "" := by
    intro h
    rw [h, parse_request_of_empty] at hparse
    exact Sum.noConfusion hparse
  simp only [convert_handler, hparse, if_neg hempty, if_pos rfl, if_true]

theorem c7_equal_code_shortcut_witness :
    convert_handler "10 USD to USD" ⟨none, ⟨0, 0⟩⟩ ⟨0, 0⟩ .failure
      = ⟨.sameCode (fmt 10) "USD", ⟨none, ⟨0, 0⟩⟩, false⟩ :=
  c7_equal_code_shortcut "10 USD to USD" 10 "USD" ⟨none, ⟨0, 0⟩⟩ ⟨0, 0⟩
    .failure (by decide)

/-- Claim C8: over one table snapshot, converting `x` from `A` to `B` with
the conversion computation of the handler and converting the result back
from `B` to `A` recovers `x` exactly (hence in particular within the
rounding tolerance of the formatting rule), whenever both records have
nonzero rate and scale. -/
theorem c8_round_trip (t : RateTable) (x y : ℚ) (a b : String)
    (ra rb : RateRecord)
    (ha : t.lookup a = some ra) (hb : t.lookup b = some rb)
    (ha1 : ra.curOfficialRate ≠ 0) (ha2 : ra.curScale ≠ 0)
    (hb1 : rb.curOfficialRate ≠ 0) (hb2 : rb.curScale ≠ 0)
    (hy : convertAmount t x a b = some y) :
    convertAmount t y b a = some x := by
  have hua : unitValue ra ≠ 0 := by
    rw [unitValue, qdiv_eq]
    exact div_ne_zero ha1 ha2
  have hub : unitValue rb ≠ 0 := by
    rw [unitValue, qdiv_eq]
    exact div_ne_zero hb1 hb2
  simp only [convertAmount, ha, hb, Option.some.injEq] at hy ⊢
  subst hy
  rw [qdiv_eq, qmul_eq, qdiv_eq, qmul_eq]
  field_simp

theorem c8_round_trip_witness :
    convertAmount [("USD", ⟨some "Dollar", 3, 1⟩), ("EUR", ⟨some "Euro", 7, 2⟩)]
      (mkRat 60 7) "EUR" "USD" = some 10 :=
  c8_round_trip
    [("USD", ⟨some "Dollar", 3, 1⟩), ("EUR", ⟨some "Euro", 7, 2⟩)]
    10 (mkRat 60 7) "USD" "EUR" ⟨some "Dollar", 3, 1⟩ ⟨some "Euro", 7, 2⟩
    (by decide) (by decide) (by decide) (by decide) (by decide) (by decide)
    (by decide)

/-- Claim C10: the zero-amount rejection guards only the bare-number
branch.  An input that the `Decimal` shortcut rejects but the explicit
grammar matches with amount 0 is not answered with a usage error: the
handler proceeds to conversion and, when both codes are present in the
table, returns a result whose converted amount is 0. -/
theorem c10_explicit_zero_proceeds (text F T : String) (f t : String)
    (c c1 : Cache) (now : PyDateTime) (fetch : FetchResult)
    (rates : RateTable) (rf rt : RateRecord)
    (hstrip : pyStrip (pyReplace text "/convert" "") = text)
    (hdec : pyDecimal (pyReplace text "," ".") = none)
    (hre : req_re_match text = some (0, f, t))
    (hF : pyUpper f = F) (hT : pyUpper t = T)
    (hne : F ≠ T)
    (hrates : get_rates c now fetch = (c1, some rates))
    (hnonempty : rates.isEmpty = false)
    (hf : (dictInsert rates "BYN" bynRecord).lookup F = some rf)
    (ht : (dictInsert rates "BYN" bynRecord).lookup T = some rt) :
    convert_handler text c now fetch =
      ⟨.result 0 F 0 T (unitValue rf / unitValue rt),
        ⟨some (dictInsert rates "BYN" bynRecord), c1.last_date⟩, true⟩ := by
  have hparse : parse_request text = .inr (0, F, T) := by
    simp only [parse_request, hdec, hre, hF, hT]
  have hempty : text ≠ "" := by
    intro h
    rw [h, parse_request_of_empty] at hparse
    exact Sum.noConfusion hparse
  simp only [convert_handler, hstrip, if_neg hempty, hparse, if_neg hne,
    hrates, hnonempty, Bool.false_eq_true, if_false, hf, ht]
  simp only [qdiv_eq, qmul_eq, zero_mul, zero_div, HandlerOut.mk.injEq,
    Reply.result.injEq, and_self, and_true, true_and]

theorem c10_explicit_zero_proceeds_witness :
    convert_handler "0 USD to EUR"
      ⟨some [("USD", ⟨some "Dollar", 3, 1⟩), ("EUR", ⟨some "Euro", 7, 2⟩)],
        ⟨800, 40000000000⟩⟩
      ⟨800, 41000000000⟩ .failure =
    ⟨.result 0 "USD" 0 "EUR"
        (unitValue ⟨some "Dollar", 3, 1⟩ / unitValue ⟨some "Euro", 7, 2⟩),
      ⟨some [("USD", ⟨some "Dollar", 3, 1⟩), ("EUR", ⟨some "Euro", 7, 2⟩),
        ("BYN", bynRecord)], ⟨800, 40000000000⟩⟩, true⟩ :=
  c10_explicit_zero_proceeds "0 USD to EUR" "USD" "EUR" "USD" "EUR"
    ⟨some [("USD", ⟨some "Dollar", 3, 1⟩), ("EUR", ⟨some "Euro", 7, 2⟩)],
      ⟨800, 40000000000⟩⟩
    ⟨some [("USD", ⟨some "Dollar", 3, 1⟩), ("EUR", ⟨some "Euro", 7, 2⟩)],
      ⟨800, 40000000000⟩⟩
    ⟨800, 41000000000⟩ .failure
    [("USD", ⟨some "Dollar", 3, 1⟩), ("EUR", ⟨some "Euro", 7, 2⟩)]
    ⟨some "Dollar", 3, 1⟩ ⟨some "Euro", 7, 2⟩
    (by decide) (by decide) (by decide) (by decide) (by decide) (by decide)
    (by decide) (by decide) (by decide) (by decide)

end ConverterBot
